import Mathlib

/-!
Verification development for the data-sentinel restricted execution engine
(`src/secure_code_runner/runner_service.py`).

The embedding models:
  * the tabular `Dataset` (ordered named columns of typed cells);
  * the wire marshaler (`to_json(orient='records')` / `read_json(orient='records')`),
    modelled at the JSON-value level: a dataset serializes to a JSON array of
    records, one object per row, with missing cells written as `null`;
    deserialization rebuilds columns in order of first key appearance and
    reads `null` / absent keys back as missing cells (dtype inference and
    date coercion performed by the host library are abstracted: cells are
    carried as tagged scalar values);
  * the static guard (`FORBIDDEN_KEYWORDS` raw-substring scan);
  * the sandbox namespace built by `create_execution_environment`;
  * the `/execute` endpoint pipeline `execute_cleaning_code`, instrumented
    with invocation counters for the guard, the sandbox builder and the
    execution driver.  The host `exec` primitive is an opaque parameter
    `run : String → Dataset → Except String Dataset` (the snippet text and
    the dataframe bound in the namespace, returning the dataframe read back
    from the namespace, or the raised error's message).
-/

namespace DataSentinel

/-- One cell of a tabular dataset: numeric, text, boolean, or missing
(the `NaN` / `null` marker). -/
inductive Cell where
  | missing
  | num (q : Rat)
  | str (s : String)
  | bool (b : Bool)
deriving DecidableEq

/-- A named column: the column label and its ordered cells. -/
structure Column where
  name : String
  cells : List Cell
deriving DecidableEq

/-- A dataset: an ordered sequence of named columns. -/
structure Dataset where
  cols : List Column
deriving DecidableEq

/-- Number of rows of a dataset, read off the first column
(all columns of a well-formed dataset have this length). -/
def nrows (D : Dataset) : Nat :=
  match D.cols with
  | [] => 0
  | c :: _ => c.cells.length

/-- A JSON value, the wire representation exchanged at the service boundary. -/
inductive JVal where
  | null
  | jbool (b : Bool)
  | jnum (q : Rat)
  | jstr (s : String)
  | jarr (elems : List JVal)
  | jobj (fields : List (String × JVal))

/-- Serialization of one cell to JSON: a missing cell is written as `null`. -/
def cellToJ : Cell → JVal
  | .missing => .null
  | .num q => .jnum q
  | .str s => .jstr s
  | .bool b => .jbool b

/-- Deserialization of one scalar JSON value to a cell: `null` reads back as
missing; nested arrays/objects are not valid cells. -/
def jToCell : JVal → Option Cell
  | .null => some .missing
  | .jnum q => some (.num q)
  | .jstr s => some (.str s)
  | .jbool b => some (.bool b)
  | .jarr _ => none
  | .jobj _ => none

/-- Row `i` of a dataset as an association list of column name to cell
(missing if the column is shorter than the row index). -/
def rowRecord (D : Dataset) (i : Nat) : List (String × Cell) :=
  D.cols.map (fun c => (c.name, c.cells.getD i .missing))

/-- `to_json(orient='records')`: the dataset as a JSON array with one object
per row, keys in column order, missing cells as `null`. -/
def toWire (D : Dataset) : JVal :=
  .jarr ((List.range (nrows D)).map
    (fun i => .jobj ((rowRecord D i).map (fun kc => (kc.1, cellToJ kc.2)))))

/-- Traverse a list with a partial function, failing if any element fails. -/
def traverseOption (g : α → Option β) : List α → Option (List β)
  | [] => some []
  | a :: l =>
    match g a, traverseOption g l with
    | some b, some bs => some (b :: bs)
    | _, _ => none

/-- Decode one wire record: it must be a JSON object whose values are scalars. -/
def decodeRecord : JVal → Option (List (String × Cell))
  | .jobj kvs => traverseOption (fun kv => (jToCell kv.2).map (fun c => (kv.1, c))) kvs
  | _ => none

/-- Append a key to the accumulated column order unless already present. -/
def insertKey (acc : List String) (k : String) : List String :=
  if k ∈ acc then acc else acc ++ [k]

/-- Fold one record's keys into the accumulated column order. -/
def recordKeys (acc : List String) (r : List (String × Cell)) : List String :=
  (r.map Prod.fst).foldl insertKey acc

/-- Column order of the decoded dataset: keys in order of first appearance
across the records. -/
def keysInOrder (recs : List (List (String × Cell))) : List String :=
  recs.foldl recordKeys []

/-- Rebuild a dataset from decoded records: one column per key, reading each
record's value for that key (absent key reads as missing). -/
def buildDataset (recs : List (List (String × Cell))) : Dataset :=
  ⟨(keysInOrder recs).map
    (fun nm => ⟨nm, recs.map (fun r => (List.lookup nm r).getD .missing)⟩)⟩

/-- `read_json(orient='records')`: the wire value must be a JSON array of
records; anything else is a malformed payload. -/
def fromWire (v : JVal) : Option Dataset :=
  match v with
  | .jarr rvs => (traverseOption decodeRecord rvs).map buildDataset
  | _ => none

/-- A value bound in the sandbox namespace: an opaque reference to a fixed
host object (an allowed builtin or one of the library module handles), the
`__builtins__` table of allowed builtins, or the private dataframe copy. -/
inductive Binding where
  | cap (tag : String)
  | table (t : List (String × String))
  | data (d : Dataset)

/-- The safelist of builtin functions the executed code is allowed to use,
from `create_execution_environment` (keys of the `safe_builtins` dict, each
mapped to the host object it names). -/
def safe_builtins : List (String × String) :=
  [("print", "print"), ("range", "range"), ("len", "len"), ("str", "str"),
   ("int", "int"), ("float", "float"), ("list", "list"), ("dict", "dict"),
   ("set", "set"), ("tuple", "tuple"), ("abs", "abs"), ("max", "max"),
   ("min", "min"), ("sum", "sum"), ("round", "round"), ("True", "True"),
   ("False", "False"), ("None", "None")]

/-- `create_execution_environment(df_in)`: the sandbox namespace handed to
`exec` — exactly `__builtins__` (the safelist table), the three library
handles `pd`, `np`, `scipy`, and `df` bound to a private copy of the input
dataframe (the copy is by value here, so copying is the identity on the
value; the heap-level copy semantics is modelled by `allocCopy`). -/
def create_execution_environment (df_in : Dataset) : List (String × Binding) :=
  [("__builtins__", .table safe_builtins),
   ("pd", .cap "pd"), ("np", .cap "np"), ("scipy", .cap "scipy"),
   ("df", .data df_in)]

/-- The dataframe bound under the fixed name `df` in a sandbox namespace
(reading `env["locals"]["df"]` after execution). -/
def sandboxDataset (env : List (String × Binding)) : Dataset :=
  match List.lookup "df" env with
  | some (.data d) => d
  | _ => ⟨[]⟩

/-- The capability portion of the namespace built for a given dataframe:
every binding except the per-request `df`. -/
def capabilityBindings (d : Dataset) : List (String × Binding) :=
  (create_execution_environment d).filter (fun p => p.1 != "df")

/-- Checks whether `pat` occurs at the start of `l`. -/
def charsBeginWith (l pat : List Char) : Bool :=
  match pat, l with
  | [], _ => true
  | _ :: _, [] => false
  | a :: ps, b :: ls => a == b && charsBeginWith ls ps

/-- Checks whether `pat` occurs contiguously anywhere in `l`. -/
def charsContain (l pat : List Char) : Bool :=
  charsBeginWith l pat ||
    match l with
    | [] => false
    | _ :: ls => charsContain ls pat

/-- Raw substring test on strings, the semantics of the host's
`keyword in code_snippet` membership test. -/
def containsSubstr (hay pat : String) : Bool :=
  charsContain hay.data pat.data

/-- The static guard's denylist, from `execute_cleaning_code`. -/
def FORBIDDEN_KEYWORDS : List String := ["import ", "__"]

/-- The static guard: the snippet is rejected when any denylisted keyword
occurs in it as a raw substring. -/
def containsForbidden (snippet : String) : Bool :=
  FORBIDDEN_KEYWORDS.any (fun kw => containsSubstr snippet kw)

/-- The error message returned on a static-guard rejection. -/
def securityViolationMessage : String :=
  "Security Violation: Code snippet contains forbidden keyword."

/-- The body of a normal (200-equivalent) `/execute` response. -/
structure ExecutionResponse where
  cleaned_dataframe_json : Option JVal
  success : Bool
  error_message : Option String

/-- What the service sends back: either an HTTP error (the deserialization
failure path raises an HTTPException with a client-error status) or a normal
response body. -/
inductive ServiceReply where
  | httpError (status : Nat) (detail : String)
  | response (r : ExecutionResponse)

/-- The error text carried by a reply, if any. -/
def replyMessage : ServiceReply → Option String
  | .httpError _ d => some d
  | .response r => r.error_message

/-- The reply of one `/execute` request together with instrumentation
counters: how often the static guard ran, how often the sandbox builder ran,
and how often the execution driver (the `exec` call) was invoked. -/
structure RunnerOutput where
  reply : ServiceReply
  guardChecks : Nat
  sandboxBuilds : Nat
  driverInvocations : Nat

/-- The fixed detail text of the deserialization failure (the model elides
the appended host exception text). -/
def deserializationErrorDetail : String :=
  "Failed to deserialize input DataFrame"

/-- The `/execute` endpoint, `execute_cleaning_code`: deserialize the
dataframe payload (failure raises a 400 HTTPException), run the static
guard, build the sandbox, invoke the driver `run` on the snippet and the
dataframe bound in the namespace, and marshal either the resulting
dataframe or the caught error message. -/
def execute_cleaning_code (run : String → Dataset → Except String Dataset)
    (dataframe_json : JVal) (code_snippet : String) : RunnerOutput :=
  match fromWire dataframe_json with
  | none => ⟨.httpError 400 deserializationErrorDetail, 0, 0, 0⟩
  | some df_in =>
    if containsForbidden code_snippet then
      ⟨.response ⟨none, false, some securityViolationMessage⟩, 1, 0, 0⟩
    else
      let env := create_execution_environment df_in
      match run code_snippet (sandboxDataset env) with
      | .error e => ⟨.response ⟨none, false, some e⟩, 1, 1, 1⟩
      | .ok df_out => ⟨.response ⟨some (toWire df_out), true, none⟩, 1, 1, 1⟩

/-- Heap-level model of the dataset handling in
`create_execution_environment` (`df = df_in.copy()`): datasets live in a
store of cells addressed by index; building the sandbox allocates a fresh
cell initialized with the value read at the caller's reference, and the
sandbox's `df` is bound to that fresh cell.  Returns the extended store and
the fresh reference. -/
def allocCopy (store : List Dataset) (src : Nat) : List Dataset × Nat :=
  (store ++ [store.getD src ⟨[]⟩], store.length)

end DataSentinel

namespace DataSentinel

/-- Helper: decoding inverts encoding on a single cell. -/
theorem jToCell_cellToJ (c : Cell) : jToCell (cellToJ c) = some c := by
  cases c <;> rfl

/-- Helper: traversing a mapped list succeeds pointwise. -/
theorem traverseOption_map {α β γ : Type} (g : γ → Option β) (F : α → γ) (f : α → β) :
    ∀ l : List α, (∀ a ∈ l, g (F a) = some (f a)) →
      traverseOption g (l.map F) = some (l.map f)
  | [], _ => rfl
  | a :: l, h => by
    have h1 : g (F a) = some (f a) := h a (List.mem_cons_self a l)
    have h2 := traverseOption_map g F f l (fun x hx => h x (List.mem_cons_of_mem a hx))
    simp [traverseOption, h1, h2]

/-- Helper: decoding inverts encoding on a whole record. -/
theorem decodeRecord_encoded (r : List (String × Cell)) :
    decodeRecord (.jobj (r.map (fun kc => (kc.1, cellToJ kc.2)))) = some r := by
  show traverseOption _ _ = _
  have := traverseOption_map
    (fun kv : String × JVal => (jToCell kv.2).map (fun c => (kv.1, c)))
    (fun kc : String × Cell => (kc.1, cellToJ kc.2)) (fun kc => kc) r
    (fun kc _ => by simp [jToCell_cellToJ])
  simpa using this

/-- Helper: inserting pairwise-new keys appends them in order. -/
theorem foldl_insertKey_append : ∀ (ks acc : List String),
    (∀ k ∈ ks, k ∉ acc) → ks.Nodup → ks.foldl insertKey acc = acc ++ ks
  | [], acc, _, _ => by simp
  | k :: ks, acc, h, hnd => by
    have hk : insertKey acc k = acc ++ [k] := by
      simp [insertKey, h k (List.mem_cons_self k ks)]
    have hrest : ∀ x ∈ ks, x ∉ acc ++ [k] := by
      intro x hx
      simp only [List.mem_append, List.mem_singleton]
      rintro (hxa | rfl)
      · exact h x (List.mem_cons_of_mem k hx) hxa
      · exact (List.nodup_cons.mp hnd).1 hx
    have := foldl_insertKey_append ks (acc ++ [k]) hrest (List.nodup_cons.mp hnd).2
    simp only [List.foldl_cons, hk, this, List.append_assoc, List.singleton_append]

/-- Helper: inserting already-present keys changes nothing. -/
theorem foldl_insertKey_id : ∀ (ks acc : List String),
    (∀ k ∈ ks, k ∈ acc) → ks.foldl insertKey acc = acc
  | [], _, _ => rfl
  | k :: ks, acc, h => by
    have hk : insertKey acc k = acc := by
      simp [insertKey, h k (List.mem_cons_self k ks)]
    simpa [List.foldl_cons, hk] using
      foldl_insertKey_id ks acc (fun x hx => h x (List.mem_cons_of_mem k hx))

/-- Helper: when every record carries the same duplicate-free key list, the
reconstructed column order is that key list. -/
theorem keysInOrder_of_const (ks : List String) (hnd : ks.Nodup) :
    ∀ recs : List (List (String × Cell)), recs ≠ [] →
      (∀ r ∈ recs, r.map Prod.fst = ks) → keysInOrder recs = ks := by
  intro recs hne hconst
  match recs with
  | [] => exact absurd rfl hne
  | r :: rest =>
    have h0 : recordKeys [] r = ks := by
      unfold recordKeys
      rw [hconst r (List.mem_cons_self r rest)]
      simpa using foldl_insertKey_append ks [] (by simp) hnd
    have haux : ∀ rest' : List (List (String × Cell)),
        (∀ r' ∈ rest', r'.map Prod.fst = ks) → rest'.foldl recordKeys ks = ks := by
      intro rest'
      induction rest' with
      | nil => intro _; rfl
      | cons r' rest'' ih =>
        intro hc
        have hr' : recordKeys ks r' = ks := by
          unfold recordKeys
          rw [hc r' (List.mem_cons_self r' rest'')]
          exact foldl_insertKey_id ks ks (fun _ hk => hk)
        simpa [List.foldl_cons, hr'] using
          ih (fun x hx => hc x (List.mem_cons_of_mem r' hx))
    show (r :: rest).foldl recordKeys [] = ks
    rw [List.foldl_cons, h0]
    exact haux rest (fun x hx => hconst x (List.mem_cons_of_mem r hx))

/-- Helper: looking a column's name up in a row built from distinctly named
columns returns that column's entry. -/
theorem lookup_map_column {β : Type} (f : Column → β) :
    ∀ (cols : List Column) (c : Column), c ∈ cols → (cols.map Column.name).Nodup →
      List.lookup c.name (cols.map (fun x => (x.name, f x))) = some (f c)
  | [], c, hc, _ => absurd hc (List.not_mem_nil c)
  | c1 :: cols, c, hc, hnd => by
    have hnd2 : c1.name ∉ cols.map Column.name ∧ (cols.map Column.name).Nodup := by
      rw [List.map_cons] at hnd
      exact List.nodup_cons.mp hnd
    rcases List.mem_cons.mp hc with rfl | hmem
    · simp [List.lookup]
    · have hcm : c.name ∈ cols.map Column.name := List.mem_map.mpr ⟨c, hmem, rfl⟩
      have hne : c.name ≠ c1.name := fun he => hnd2.1 (he ▸ hcm)
      have hbeq : (c.name == c1.name) = false := beq_eq_false_iff_ne.mpr hne
      simp only [List.map_cons, List.lookup, hbeq]
      exact lookup_map_column f cols c hmem hnd2.2

/-- Helper: reading every position of a list back by index reproduces it. -/
theorem map_range_getD (d : Cell) : ∀ l : List Cell,
    (List.range l.length).map (fun i => l.getD i d) = l
  | [] => rfl
  | a :: l => by
    rw [List.length_cons, List.range_succ_eq_map, List.map_cons, List.map_map]
    have hcomp : ((fun i => (a :: l).getD i d) ∘ Nat.succ) = fun i => l.getD i d := by
      funext i
      simp [Function.comp, List.getD_cons_succ]
    simp only [List.getD_cons_zero, hcomp, map_range_getD d l]

end DataSentinel

namespace DataSentinel

/-- Helper: the marshaler round-trips any rectangular dataset with distinct
column names whose columns are nonempty (or which has no columns at all). -/
theorem fromWire_toWire (D : Dataset)
    (hlen : ∀ c ∈ D.cols, c.cells.length = nrows D)
    (hnd : (D.cols.map Column.name).Nodup)
    (hpos : D.cols = [] ∨ 0 < nrows D) :
    fromWire (toWire D) = some D := by
  have hdec : traverseOption decodeRecord ((List.range (nrows D)).map
      (fun i => JVal.jobj ((rowRecord D i).map (fun kc => (kc.1, cellToJ kc.2))))) =
      some ((List.range (nrows D)).map (rowRecord D)) :=
    traverseOption_map _ _ _ _ (fun i _ => decodeRecord_encoded (rowRecord D i))
  have h1 : fromWire (toWire D) =
      some (buildDataset ((List.range (nrows D)).map (rowRecord D))) := by
    simp [toWire, fromWire, hdec]
  rw [h1]
  congr 1
  by_cases hc : D.cols = []
  · have hn : nrows D = 0 := by simp [nrows, hc]
    cases D with
    | mk cols =>
      simp only at hc
      subst hc
      rfl
  · have hn : 0 < nrows D := hpos.resolve_left hc
    set recs := (List.range (nrows D)).map (rowRecord D) with hrecs
    have hkeys : ∀ r ∈ recs, r.map Prod.fst = D.cols.map Column.name := by
      intro r hr
      rcases List.mem_map.mp hr with ⟨i, _, rfl⟩
      simp [rowRecord, List.map_map, Function.comp]
    have hne : recs ≠ [] := by
      intro h
      have := congrArg List.length h
      simp [hrecs] at this
      omega
    have hK : keysInOrder recs = D.cols.map Column.name :=
      keysInOrder_of_const _ hnd recs hne hkeys
    unfold buildDataset
    rw [hK]
    have hcol : ∀ c ∈ D.cols,
        (fun nm => Column.mk nm (recs.map (fun r => (List.lookup nm r).getD .missing))) c.name = c := by
      intro c hcmem
      have hcells : recs.map (fun r => (List.lookup c.name r).getD Cell.missing) = c.cells := by
        rw [hrecs, List.map_map]
        have hpt : ∀ i ∈ List.range (nrows D),
            ((fun r => (List.lookup c.name r).getD Cell.missing) ∘ rowRecord D) i =
              c.cells.getD i Cell.missing := by
          intro i _
          have := lookup_map_column (fun x => x.cells.getD i Cell.missing) D.cols c hcmem hnd
          simp only [Function.comp]
          rw [show rowRecord D i = D.cols.map (fun x => (x.name, x.cells.getD i Cell.missing)) from rfl]
          rw [this]
          rfl
        rw [List.map_congr_left hpt, ← hlen c hcmem]
        exact map_range_getD Cell.missing c.cells
      simp only [hcells]
    have h2 : (D.cols.map Column.name).map
        (fun nm => Column.mk nm (recs.map (fun r => (List.lookup nm r).getD .missing))) = D.cols := by
      rw [List.map_map]
      calc D.cols.map ((fun nm => Column.mk nm (recs.map (fun r => (List.lookup nm r).getD .missing))) ∘ Column.name)
          = D.cols.map id := List.map_congr_left (fun c hcm => hcol c hcm)
        _ = D.cols := List.map_id D.cols
    rw [h2]

end DataSentinel

namespace DataSentinel

/-- Helper: the dataframe bound in a freshly built sandbox is the input
dataframe. -/
theorem sandboxDataset_env (d : Dataset) :
    sandboxDataset (create_execution_environment d) = d := rfl

/-- Helper: the guard's denylist scan, written out over the two keywords. -/
theorem containsForbidden_eq (s : String) :
    containsForbidden s = (containsSubstr s "import " || containsSubstr s "__") := by
  simp [containsForbidden, FORBIDDEN_KEYWORDS, List.any]

/-- Helper: prefix test characterization. -/
theorem charsBeginWith_iff : ∀ (p l : List Char),
    charsBeginWith l p = true ↔ ∃ post, l = p ++ post
  | [], l => by
    simp [charsBeginWith]
  | a :: ps, [] => by
    constructor
    · intro h
      exact absurd h (by simp [charsBeginWith])
    · rintro ⟨post, hpost⟩
      exact absurd hpost (by simp)
  | a :: ps, b :: ls => by
    show (a == b && charsBeginWith ls ps) = true ↔ _
    simp only [Bool.and_eq_true, beq_iff_eq]
    constructor
    · rintro ⟨rfl, h⟩
      rcases (charsBeginWith_iff ps ls).mp h with ⟨post, rfl⟩
      exact ⟨post, rfl⟩
    · rintro ⟨post, hpost⟩
      rw [List.cons_append] at hpost
      obtain ⟨rfl, hls⟩ := List.cons.inj hpost
      exact ⟨rfl, (charsBeginWith_iff ps ls).mpr ⟨post, hls⟩⟩

/-- Helper: substring test characterization. -/
theorem charsContain_iff (p : List Char) : ∀ l : List Char,
    charsContain l p = true ↔ ∃ pre post, l = pre ++ p ++ post := by
  intro l
  induction l with
  | nil =>
    constructor
    · intro h
      have hb : charsBeginWith [] p = true := by
        simpa [charsContain] using h
      rcases (charsBeginWith_iff p []).mp hb with ⟨post, hp⟩
      exact ⟨[], post, by simpa using hp⟩
    · rintro ⟨pre, post, hp⟩
      have hpre : pre = [] := by
        cases pre <;> simp_all
      subst hpre
      have hp2 : p = [] := by
        cases p <;> simp_all
      subst hp2
      rfl
  | cons c ls ih =>
    constructor
    · intro h
      have h2 : charsBeginWith (c :: ls) p = true ∨ charsContain ls p = true := by
        simpa [charsContain, Bool.or_eq_true] using h
      rcases h2 with hb | ht
      · rcases (charsBeginWith_iff p (c :: ls)).mp hb with ⟨post, hp⟩
        exact ⟨[], post, by simpa using hp⟩
      · rcases ih.mp ht with ⟨pre, post, hp⟩
        exact ⟨c :: pre, post, by simp [hp]⟩
    · rintro ⟨pre, post, hp⟩
      cases pre with
      | nil =>
        have hb : charsBeginWith (c :: ls) p = true :=
          (charsBeginWith_iff p (c :: ls)).mpr ⟨post, by simpa using hp⟩
        simp [charsContain, hb]
      | cons x xs =>
        rw [List.cons_append, List.cons_append] at hp
        obtain ⟨rfl, hls⟩ := List.cons.inj hp
        have ht : charsContain ls p = true := ih.mpr ⟨xs, post, by simpa using hls⟩
        simp [charsContain, ht]

end DataSentinel

namespace DataSentinel

/-- C2 (counterexample): the claim says the Static Guard rejects every
snippet containing a dynamic-evaluation primitive. The snippet `eval(df)`
contains one, yet with a well-formed dataset the guard passes it: the
execution driver is invoked (count 1, not 0) and the reply does not carry
the security-violation message (the name merely fails to resolve at run
time). -/
theorem c2_counterexample :
    (execute_cleaning_code (fun _ _ => Except.error "name eval is not defined")
        (toWire ⟨[⟨"a", [.num 1]⟩]⟩) "eval(df)").driverInvocations = 1 ∧
    replyMessage (execute_cleaning_code (fun _ _ => Except.error "name eval is not defined")
        (toWire ⟨[⟨"a", [.num 1]⟩]⟩) "eval(df)").reply ≠ some securityViolationMessage :=
  ⟨rfl, by decide⟩

/-- C2 (amended): for a request with a well-formed dataset payload, the
service returns the security-violation rejection (with the driver never
invoked) exactly when the snippet contains one of the two configured
denylist substrings, `"import "` or `"__"`; snippets containing only
dynamic-evaluation primitives or OS/file/network primitive names pass the
guard. -/
theorem c2_guard_denylist_amended (run : String → Dataset → Except String Dataset)
    (wire : JVal) (snippet : String) (d : Dataset) (hw : fromWire wire = some d) :
    ((execute_cleaning_code run wire snippet).reply =
        .response ⟨none, false, some securityViolationMessage⟩ ∧
      (execute_cleaning_code run wire snippet).driverInvocations = 0) ↔
    (containsSubstr snippet "import " || containsSubstr snippet "__") = true := by
  rw [← containsForbidden_eq]
  by_cases hf : containsForbidden snippet = true
  · simp [execute_cleaning_code, hw, hf]
  · have hf2 : containsForbidden snippet = false := by
      simpa using hf
    cases hr : run snippet d with
    | error e => simp [execute_cleaning_code, hw, hf2, sandboxDataset_env, hr]
    | ok d2 => simp [execute_cleaning_code, hw, hf2, sandboxDataset_env, hr]

/-- C2 (witness for the amended theorem): a snippet containing `"import "`
is rejected with the security-violation reply and zero driver invocations. -/
theorem c2_guard_denylist_witness :
    ((execute_cleaning_code (fun _ d => Except.ok d) (toWire ⟨[⟨"a", [.num 1]⟩]⟩) "import os").reply =
        .response ⟨none, false, some securityViolationMessage⟩ ∧
      (execute_cleaning_code (fun _ d => Except.ok d) (toWire ⟨[⟨"a", [.num 1]⟩]⟩) "import os").driverInvocations = 0) ↔
    (containsSubstr "import os" "import " || containsSubstr "import os" "__") = true :=
  c2_guard_denylist_amended (fun _ d => Except.ok d) (toWire ⟨[⟨"a", [.num 1]⟩]⟩)
    "import os" ⟨[⟨"a", [.num 1]⟩]⟩ rfl

end DataSentinel

namespace DataSentinel

/-- C3 (counterexample): the round-trip fails on a valid zero-row dataset.
The single column `age` with no cells serializes to the empty JSON array, and
deserialization yields a dataset with no columns at all: the column name is
lost. -/
theorem c3_roundtrip_counterexample :
    fromWire (toWire ⟨[⟨"age", []⟩]⟩) = some ⟨[]⟩ ∧
    (Dataset.mk [] ≠ ⟨[⟨"age", []⟩]⟩) :=
  ⟨rfl, by decide⟩

/-- C3 (amended): for every rectangular dataset with pairwise-distinct
column names that has at least one row (or no columns at all),
deserializing the serialization yields a dataset structurally equal to the
original: same columns in the same order, same names, same cell values, and
every missing cell still missing. -/
theorem c3_roundtrip_amended (D : Dataset)
    (hlen : ∀ c ∈ D.cols, c.cells.length = nrows D)
    (hnd : (D.cols.map Column.name).Nodup)
    (hpos : D.cols = [] ∨ 0 < nrows D) :
    fromWire (toWire D) = some D :=
  fromWire_toWire D hlen hnd hpos

/-- C3 (witness): the round-trip on a concrete two-column dataset with a
missing cell. -/
theorem c3_roundtrip_witness :
    fromWire (toWire ⟨[⟨"age", [.num 30, .missing]⟩, ⟨"city", [.str "x", .str "y"]⟩]⟩) =
      some ⟨[⟨"age", [.num 30, .missing]⟩, ⟨"city", [.str "x", .str "y"]⟩]⟩ :=
  c3_roundtrip_amended ⟨[⟨"age", [.num 30, .missing]⟩, ⟨"city", [.str "x", .str "y"]⟩]⟩
    (by decide) (by decide) (by decide)

/-- C4 (counterexample): the claim says an empty composed snippet
short-circuits before reaching the Execution Driver. It does not: the empty
snippet passes the static guard and the driver is invoked once. -/
theorem c4_empty_plan_counterexample :
    (execute_cleaning_code (fun _ d => Except.ok d) (toWire ⟨[⟨"a", [.num 1]⟩]⟩) "").driverInvocations = 1 :=
  rfl

/-- C4 (amended): an empty composed snippet is not short-circuited — the
driver runs it once — but since executing the empty snippet leaves the
dataframe binding unchanged, the service still returns Success with a
dataset equal to the deserialized input dataset. -/
theorem c4_empty_plan_amended (run : String → Dataset → Except String Dataset)
    (wire : JVal) (d : Dataset) (hw : fromWire wire = some d)
    (hrun : run "" d = Except.ok d) :
    execute_cleaning_code run wire "" =
      ⟨.response ⟨some (toWire d), true, none⟩, 1, 1, 1⟩ := by
  have hg : containsForbidden "" = false := rfl
  simp [execute_cleaning_code, hw, hg, sandboxDataset_env, hrun]

/-- C4 (witness): the amended behavior on a concrete dataset with a no-op
driver on the empty snippet. -/
theorem c4_empty_plan_witness :
    execute_cleaning_code (fun _ d => Except.ok d) (toWire ⟨[⟨"a", [.num 1]⟩]⟩) "" =
      ⟨.response ⟨some (toWire ⟨[⟨"a", [.num 1]⟩]⟩), true, none⟩, 1, 1, 1⟩ :=
  c4_empty_plan_amended (fun _ d => Except.ok d) (toWire ⟨[⟨"a", [.num 1]⟩]⟩)
    ⟨[⟨"a", [.num 1]⟩]⟩ rfl rfl

/-- C5: for every snippet that passes the static guard (on a well-formed
dataset payload), a failure raised by the execution driver is caught and
converted into a structured failure reply — success false, the underlying
error message, no dataset — and never propagates as an unhandled fault. -/
theorem c5_driver_catches_failures (run : String → Dataset → Except String Dataset)
    (wire : JVal) (snippet : String) (d : Dataset) (msg : String)
    (hw : fromWire wire = some d) (hg : containsForbidden snippet = false)
    (hr : run snippet d = Except.error msg) :
    execute_cleaning_code run wire snippet =
      ⟨.response ⟨none, false, some msg⟩, 1, 1, 1⟩ := by
  simp [execute_cleaning_code, hw, hg, sandboxDataset_env, hr]

/-- C5 (witness): a concrete runtime failure is returned as a structured
failure reply. -/
theorem c5_driver_catches_failures_witness :
    execute_cleaning_code (fun _ _ => Except.error "division by zero")
        (toWire ⟨[⟨"a", [.num 1]⟩]⟩) "df = df.dropna()" =
      ⟨.response ⟨none, false, some "division by zero"⟩, 1, 1, 1⟩ :=
  c5_driver_catches_failures (fun _ _ => Except.error "division by zero")
    (toWire ⟨[⟨"a", [.num 1]⟩]⟩) "df = df.dropna()" ⟨[⟨"a", [.num 1]⟩]⟩
    "division by zero" rfl rfl rfl

/-- C6: the capability table bound into the sandbox is a process-wide
constant — for any two executions, whatever dataframes they are built for
(in particular whatever dataframe the first snippet produced), the mapping
of capability names to capability values bound into the second sandbox is
identical to the one bound into the first. -/
theorem c6_capability_table_constant (d₁ d₂ : Dataset) :
    capabilityBindings d₁ = capabilityBindings d₂ := rfl

/-- C7: a snippet containing a denylisted pattern never reaches the
execution driver — the driver invocation count is zero — and whenever the
dataset payload deserializes, the reply is the security-violation
rejection. -/
theorem c7_guard_before_execute (run : String → Dataset → Except String Dataset)
    (wire : JVal) (snippet : String) (hg : containsForbidden snippet = true) :
    (execute_cleaning_code run wire snippet).driverInvocations = 0 ∧
    (∀ d, fromWire wire = some d →
      (execute_cleaning_code run wire snippet).reply =
        .response ⟨none, false, some securityViolationMessage⟩) := by
  constructor
  · unfold execute_cleaning_code
    cases hfw : fromWire wire with
    | none => rfl
    | some d => simp [hg]
  · intro d hd
    simp [execute_cleaning_code, hd, hg]

/-- C7 (witness): a snippet containing `import ` is rejected without any
driver invocation. -/
theorem c7_guard_before_execute_witness :
    (execute_cleaning_code (fun _ d => Except.ok d) (toWire ⟨[⟨"a", [.num 1]⟩]⟩) "import socket").driverInvocations = 0 ∧
    (∀ d, fromWire (toWire ⟨[⟨"a", [.num 1]⟩]⟩) = some d →
      (execute_cleaning_code (fun _ d => Except.ok d) (toWire ⟨[⟨"a", [.num 1]⟩]⟩) "import socket").reply =
        .response ⟨none, false, some securityViolationMessage⟩) :=
  c7_guard_before_execute (fun _ d => Except.ok d) (toWire ⟨[⟨"a", [.num 1]⟩]⟩)
    "import socket" rfl

/-- C8: a malformed dataset payload is reported as a 400 client-error
HTTPException, with the static guard, the sandbox builder and the execution
driver all never invoked — even when the accompanying snippet contains
forbidden patterns (the snippet is universally quantified). -/
theorem c8_deserialization_first (run : String → Dataset → Except String Dataset)
    (wire : JVal) (snippet : String) (hw : fromWire wire = none) :
    execute_cleaning_code run wire snippet =
      ⟨.httpError 400 deserializationErrorDetail, 0, 0, 0⟩ := by
  simp [execute_cleaning_code, hw]

/-- C8 (witness): a non-array payload with a forbidden snippet yields the
400 deserialization error and zero guard/sandbox/driver invocations. -/
theorem c8_deserialization_first_witness :
    execute_cleaning_code (fun _ d => Except.ok d) JVal.null "import os" =
      ⟨.httpError 400 deserializationErrorDetail, 0, 0, 0⟩ :=
  c8_deserialization_first (fun _ d => Except.ok d) JVal.null "import os" rfl

end DataSentinel

namespace DataSentinel

/-- Helper: overwriting the cell just appended to a store. -/
theorem set_append_len {α : Type} : ∀ (l : List α) (x v : α),
    (l ++ [x]).set l.length v = l ++ [v]
  | [], _, _ => rfl
  | a :: l, x, v => by
    simp [List.set, set_append_len l x v]

/-- C9: non-aliasing of the private dataframe copy. Building the sandbox
allocates a fresh store cell holding a copy of the caller's dataset; the
copy initially equals the caller's value, and overwriting the copy's cell
with any value — as the executed code, or the caller mutating the returned
dataset, would — leaves the value at the caller's reference unchanged. -/
theorem c9_non_aliasing (store : List Dataset) (src : Nat) (v : Dataset)
    (h : src < store.length) :
    ((allocCopy store src).1.getD (allocCopy store src).2 ⟨[]⟩ = store.getD src ⟨[]⟩) ∧
    (((allocCopy store src).1.set (allocCopy store src).2 v).getD src ⟨[]⟩ =
      store.getD src ⟨[]⟩) := by
  constructor
  · show (store ++ [store.getD src ⟨[]⟩]).getD store.length ⟨[]⟩ = store.getD src ⟨[]⟩
    rw [List.getD_append_right store _ _ store.length (le_refl _)]
    simp
  · show ((store ++ [store.getD src ⟨[]⟩]).set store.length v).getD src ⟨[]⟩ =
      store.getD src ⟨[]⟩
    rw [set_append_len, List.getD_append _ _ _ _ h]

/-- C9 (witness): a concrete one-cell store — mutating the sandbox's copy
leaves the caller's dataset untouched. -/
theorem c9_non_aliasing_witness :
    ((allocCopy [⟨[⟨"a", [.num 1]⟩]⟩] 0).1.getD (allocCopy [⟨[⟨"a", [.num 1]⟩]⟩] 0).2 ⟨[]⟩ =
      ([⟨[⟨"a", [.num 1]⟩]⟩] : List Dataset).getD 0 ⟨[]⟩) ∧
    (((allocCopy [⟨[⟨"a", [.num 1]⟩]⟩] 0).1.set (allocCopy [⟨[⟨"a", [.num 1]⟩]⟩] 0).2 ⟨[]⟩).getD 0 ⟨[]⟩ =
      ([⟨[⟨"a", [.num 1]⟩]⟩] : List Dataset).getD 0 ⟨[]⟩) :=
  c9_non_aliasing [⟨[⟨"a", [.num 1]⟩]⟩] 0 ⟨[]⟩ (by decide)

/-- C10: the static guard's rejection decision is raw substring occurrence —
a snippet is flagged exactly when one of the denylisted character sequences
occurs contiguously anywhere in its text (inside a string literal, a
comment, or a longer identifier included), and every flagged snippet with a
well-formed dataset payload receives the security-violation reply. -/
theorem c10_raw_substring_guard (run : String → Dataset → Except String Dataset)
    (wire : JVal) (snippet : String) (d : Dataset) (hw : fromWire wire = some d) :
    (containsForbidden snippet = true ↔
      ((∃ pre post, snippet.data = pre ++ ("import ").data ++ post) ∨
       (∃ pre post, snippet.data = pre ++ ("__").data ++ post))) ∧
    (containsForbidden snippet = true →
      (execute_cleaning_code run wire snippet).reply =
        .response ⟨none, false, some securityViolationMessage⟩) := by
  constructor
  · rw [containsForbidden_eq, Bool.or_eq_true]
    exact or_congr (charsContain_iff ("import ").data snippet.data)
      (charsContain_iff ("__").data snippet.data)
  · intro hg
    simp [execute_cleaning_code, hw, hg]

/-- C10 (witness): a snippet whose only occurrence of a denylisted sequence
is inside a comment is still flagged and rejected. -/
theorem c10_raw_substring_guard_witness :
    (containsForbidden "df = df # import left in a comment" = true ↔
      ((∃ pre post, ("df = df # import left in a comment").data = pre ++ ("import ").data ++ post) ∨
       (∃ pre post, ("df = df # import left in a comment").data = pre ++ ("__").data ++ post))) ∧
    (containsForbidden "df = df # import left in a comment" = true →
      (execute_cleaning_code (fun _ d => Except.ok d) (toWire ⟨[⟨"a", [.num 1]⟩]⟩)
          "df = df # import left in a comment").reply =
        .response ⟨none, false, some securityViolationMessage⟩) :=
  c10_raw_substring_guard (fun _ d => Except.ok d) (toWire ⟨[⟨"a", [.num 1]⟩]⟩)
    "df = df # import left in a comment" ⟨[⟨"a", [.num 1]⟩]⟩ rfl

end DataSentinel
